import Mathlib

/-!
Verification of the uuidify-go client library.

This file gives a shallow embedding of the Go sources (`client.gen.go`,
`models.go`, `errors.go`) and proves the specified properties about it.

Modelling conventions:
* Go strings are Lean `String`s; byte positions are modelled at `Char`
  granularity (the wire data of interest is ASCII).
* Go's multiple return values `(T, error)` are modelled as a value
  together with an `Option GoError`.
* The HTTP transport (`*http.Client`) is an external collaborator; it is
  modelled as a response function `HttpRequest → TransportResult` carried
  by the `HttpClient` handle.  The list of `HttpRequest`s handed to the
  transport during a call is returned alongside the result, so that
  "zero network calls" and "sends a request with these parameters" are
  statable.
* `context.Context` carries no information used by any proved claim
  (cancellation is a transport concern here) and is omitted.
-/

namespace Uuidify

/-- Go `error` values produced or consumed by this package: `errors.New` /
`fmt.Errorf` messages, the `io` sentinel errors, `encoding/json` failures,
and the three structured error types `RequestError`, `APIError` and
`DecodeError` declared in `client.gen.go`. -/
inductive GoError where
  | basic (msg : String)
  | ioEOF
  | ioUnexpectedEOF
  | jsonSyntaxError (msg : String)
  | jsonTypeError (msg : String)
  | requestError (cause : GoError)
  | apiError (statusCode : Nat) (message : String)
  | decodeError (cause : GoError)
deriving DecidableEq, Repr

/-- The `Unwrap` methods of `RequestError` and `DecodeError` expose the
wrapped cause; `APIError` and plain errors have no `Unwrap` method. -/
def errorUnwrap : GoError → Option GoError
  | .requestError cause => some cause
  | .decodeError cause => some cause
  | _ => none

/-- Byte-order comparison of character lists (UTF-8 byte order agrees with
code-point order), modelling how Go's `sort.Strings` compares strings. -/
def charListLe : List Char → List Char → Bool
  | [], _ => true
  | _ :: _, [] => false
  | a :: as, b :: bs =>
    if a < b then true else if b < a then false else charListLe as bs

/-- String comparison used by `url.Values.Encode` when sorting keys. -/
def strLe (a b : String) : Bool := charListLe a.data b.data

/-- Whitespace trimmed by `strings.TrimSpace` (the ASCII cases). -/
def isGoSpace (c : Char) : Bool :=
  c == ' ' || c == '\t' || c == '\n' || c == '\r'

/-- Trim leading and trailing whitespace, modelling `strings.TrimSpace`. -/
def trimSpace (cs : List Char) : List Char :=
  ((cs.dropWhile isGoSpace).reverse.dropWhile isGoSpace).reverse

/-- Modelling `readBodySnippet` from `client.gen.go`: read at most 4096
bytes of the body (`io.LimitReader`) and trim surrounding whitespace.  The
body is already fully available as a string here, so the `nil` reader and
read-error branches (which return the empty string) do not arise. -/
def readBodySnippet (body : String) : String :=
  String.mk (trimSpace (body.data.take 4096))

/-- Modelling `net/http.StatusText` for the status codes this service can
produce; unknown codes map to the empty string as in Go. -/
def statusText (code : Nat) : String :=
  match code with
  | 200 => "OK"
  | 201 => "Created"
  | 204 => "No Content"
  | 301 => "Moved Permanently"
  | 302 => "Found"
  | 400 => "Bad Request"
  | 401 => "Unauthorized"
  | 403 => "Forbidden"
  | 404 => "Not Found"
  | 405 => "Method Not Allowed"
  | 408 => "Request Timeout"
  | 429 => "Too Many Requests"
  | 500 => "Internal Server Error"
  | 502 => "Bad Gateway"
  | 503 => "Service Unavailable"
  | 504 => "Gateway Timeout"
  | _ => ""

/-- Upper-case hexadecimal digit, as used by `net/url`'s percent-encoding. -/
def hexDigitUpper (n : Nat) : Char :=
  if n < 10 then Char.ofNat ('0'.toNat + n) else Char.ofNat ('A'.toNat + (n - 10))

/-- UTF-8 bytes of a character (Go strings are UTF-8 encoded bytes). -/
def utf8Bytes (c : Char) : List Nat :=
  let n := c.toNat
  if n < 0x80 then [n]
  else if n < 0x800 then [0xC0 + n / 64, 0x80 + n % 64]
  else if n < 0x10000 then [0xE0 + n / 4096, 0x80 + (n / 64) % 64, 0x80 + n % 64]
  else [0xF0 + n / 262144, 0x80 + (n / 4096) % 64, 0x80 + (n / 64) % 64, 0x80 + n % 64]

/-- Percent-encoding of one byte, upper-case hex as in `net/url`. -/
def percentByte (b : Nat) : List Char :=
  ['%', hexDigitUpper (b / 16), hexDigitUpper (b % 16)]

/-- Characters `url.QueryEscape` leaves unescaped: ASCII alphanumerics and
`-`, `_`, `.`, `~`. -/
def isUnreservedQueryChar (c : Char) : Bool :=
  c.isAlphanum || c == '-' || c == '_' || c == '.' || c == '~'

/-- Escape one character the way `url.QueryEscape` escapes its bytes:
unreserved characters unchanged, space to `+`, everything else
percent-encoded byte by byte. -/
def escapeQueryChar (c : Char) : List Char :=
  if isUnreservedQueryChar c then [c]
  else if c == ' ' then ['+']
  else (utf8Bytes c).flatMap percentByte

/-- Modelling `url.QueryEscape`. -/
def queryEscape (s : String) : String :=
  String.mk (s.data.flatMap escapeQueryChar)

/-- Decimal digits of a natural number, most significant first (fuelled;
the fuel argument is an upper bound on the number of digits). -/
def natDigitsAux : Nat → Nat → List Char → List Char
  | 0, _, acc => acc
  | fuel + 1, n, acc =>
    if n = 0 then acc else natDigitsAux fuel (n / 10) (Nat.digitChar (n % 10) :: acc)

/-- Decimal representation of a natural number. -/
def itoaNat (n : Nat) : String :=
  if n = 0 then "0" else String.mk (natDigitsAux n n [])

/-- Modelling `strconv.Itoa`. -/
def itoa (i : Int) : String :=
  if i < 0 then "-" ++ itoaNat i.natAbs else itoaNat i.natAbs

/-- JSON values, as understood by `encoding/json`.  Number lexemes are kept
verbatim; none of the decoded shapes in this package reads a number. -/
inductive Json where
  | null
  | bool (b : Bool)
  | num (lexeme : String)
  | str (s : String)
  | arr (elems : List Json)
  | obj (fields : List (String × Json))

/-- Skip JSON whitespace. -/
def skipWs (cs : List Char) : List Char :=
  cs.dropWhile fun c => c == ' ' || c == '\t' || c == '\n' || c == '\r'

/-- Hexadecimal value of a character, if it is a hex digit. -/
def hexVal (c : Char) : Option Nat :=
  if '0' ≤ c ∧ c ≤ '9' then some (c.toNat - '0'.toNat)
  else if 'a' ≤ c ∧ c ≤ 'f' then some (c.toNat - 'a'.toNat + 10)
  else if 'A' ≤ c ∧ c ≤ 'F' then some (c.toNat - 'A'.toNat + 10)
  else none

/-- Translate a single-character JSON escape. -/
def escTranslate (c : Char) : Option Char :=
  match c with
  | '"' => some '"'
  | '\\' => some '\\'
  | '/' => some '/'
  | 'b' => some (Char.ofNat 8)
  | 'f' => some (Char.ofNat 12)
  | 'n' => some '\n'
  | 'r' => some '\r'
  | 't' => some '\t'
  | _ => none

/-- Parse the body of a JSON string (the opening quote already consumed),
returning the string and the remaining input.  A stream that ends inside
the string fails as `io.ErrUnexpectedEOF`, mirroring `encoding/json` on a
truncated value. -/
def parseStringBody (acc : List Char) : List Char → Except GoError (String × List Char)
  | [] => .error .ioUnexpectedEOF
  | '"' :: rest => .ok (String.mk acc.reverse, rest)
  | '\\' :: rest =>
    match rest with
    | [] => .error .ioUnexpectedEOF
    | 'u' :: h1 :: h2 :: h3 :: h4 :: rest2 =>
      match hexVal h1, hexVal h2, hexVal h3, hexVal h4 with
      | some a, some b, some c, some d =>
        parseStringBody (Char.ofNat (((a * 16 + b) * 16 + c) * 16 + d) :: acc) rest2
      | _, _, _, _ => .error (.jsonSyntaxError "invalid unicode escape")
    | 'u' :: _ => .error .ioUnexpectedEOF
    | e :: rest2 =>
      match escTranslate e with
      | some c => parseStringBody (c :: acc) rest2
      | none => .error (.jsonSyntaxError "invalid escape")
  | c :: rest => parseStringBody (c :: acc) rest

/-- Characters that may appear in a JSON number lexeme. -/
def isNumChar (c : Char) : Bool :=
  c.isDigit || c == '-' || c == '+' || c == '.' || c == 'e' || c == 'E'

mutual

/-- Parse one JSON value.  The fuel is an upper bound on nesting work;
`parseJson` supplies more fuel than any input can consume. -/
def parseVal : Nat → List Char → Except GoError (Json × List Char)
  | 0, _ => .error (.jsonSyntaxError "value nested too deeply")
  | fuel + 1, cs =>
    match skipWs cs with
    | [] => .error .ioUnexpectedEOF
    | '{' :: rest =>
      match parseObjFields fuel [] rest with
      | .error e => .error e
      | .ok (fields, rest2) => .ok (.obj fields, rest2)
    | '[' :: rest =>
      match parseArrElems fuel [] rest with
      | .error e => .error e
      | .ok (elems, rest2) => .ok (.arr elems, rest2)
    | '"' :: rest =>
      match parseStringBody [] rest with
      | .error e => .error e
      | .ok (s, rest2) => .ok (.str s, rest2)
    | 't' :: 'r' :: 'u' :: 'e' :: rest => .ok (.bool true, rest)
    | 'f' :: 'a' :: 'l' :: 's' :: 'e' :: rest => .ok (.bool false, rest)
    | 'n' :: 'u' :: 'l' :: 'l' :: rest => .ok (.null, rest)
    | c :: rest =>
      if isNumChar c then
        .ok (.num (String.mk (c :: rest.takeWhile isNumChar)), rest.dropWhile isNumChar)
      else .error (.jsonSyntaxError "invalid character")

/-- Parse the fields of a JSON object (the opening brace already
consumed), accumulating parsed fields. -/
def parseObjFields : Nat → List (String × Json) → List Char →
    Except GoError (List (String × Json) × List Char)
  | 0, _, _ => .error (.jsonSyntaxError "object nested too deeply")
  | fuel + 1, acc, cs =>
    match skipWs cs with
    | [] => .error .ioUnexpectedEOF
    | '}' :: rest => .ok (acc.reverse, rest)
    | '"' :: rest =>
      match parseStringBody [] rest with
      | .error e => .error e
      | .ok (key, rest2) =>
        match skipWs rest2 with
        | [] => .error .ioUnexpectedEOF
        | ':' :: rest3 =>
          match parseVal fuel rest3 with
          | .error e => .error e
          | .ok (v, rest4) =>
            match skipWs rest4 with
            | [] => .error .ioUnexpectedEOF
            | ',' :: rest5 => parseObjFields fuel ((key, v) :: acc) rest5
            | '}' :: rest5 => .ok (((key, v) :: acc).reverse, rest5)
            | _ => .error (.jsonSyntaxError "expected comma or closing brace")
        | _ => .error (.jsonSyntaxError "expected colon")
    | _ => .error (.jsonSyntaxError "expected object key")

/-- Parse the elements of a JSON array (the opening bracket already
consumed), accumulating parsed elements. -/
def parseArrElems : Nat → List Json → List Char →
    Except GoError (List Json × List Char)
  | 0, _, _ => .error (.jsonSyntaxError "array nested too deeply")
  | fuel + 1, acc, cs =>
    match skipWs cs with
    | [] => .error .ioUnexpectedEOF
    | ']' :: rest => .ok (acc.reverse, rest)
    | cs' =>
      match parseVal fuel cs' with
      | .error e => .error e
      | .ok (v, rest) =>
        match skipWs rest with
        | [] => .error .ioUnexpectedEOF
        | ',' :: rest2 => parseArrElems fuel (v :: acc) rest2
        | ']' :: rest2 => .ok ((v :: acc).reverse, rest2)
        | _ => .error (.jsonSyntaxError "expected comma or closing bracket")

end

/-- Modelling `json.Decoder.Decode` reading one JSON value from the body:
an input with no value at all fails with `io.EOF`; a truncated value fails
with `io.ErrUnexpectedEOF`; malformed input fails with a syntax error.
Trailing bytes after the first value are ignored, as `Decode` does. -/
def parseJson (s : String) : Except GoError Json :=
  match skipWs s.data with
  | [] => .error .ioEOF
  | cs =>
    match parseVal (s.length + 1) cs with
    | .error e => .error e
    | .ok (v, _) => .ok v

/-- Look up a field of a decoded object; with duplicate keys the last
occurrence wins, as in `encoding/json`. -/
def lookupField (fields : List (String × Json)) (key : String) : Option Json :=
  fields.foldl (fun acc kv => if kv.1 == key then some kv.2 else acc) none

/-- Decode a response struct with a single string field tagged `key`
(`UUIDResponse` / `ULIDResponse` from `models.go`): unknown fields are
ignored, a missing or null field leaves the Go zero value `""`, a field of
the wrong type is a type error. -/
def decodeStringField (key : String) (body : String) : Except GoError String :=
  match parseJson body with
  | .error e => .error e
  | .ok (.obj fields) =>
    match lookupField fields key with
    | none => .ok ""
    | some .null => .ok ""
    | some (.str s) => .ok s
    | some _ => .error (.jsonTypeError key)
  | .ok .null => .ok ""
  | .ok _ => .error (.jsonTypeError "cannot unmarshal value into struct")

/-- Extract a list of strings from decoded JSON elements. -/
def asStringList : List Json → Except GoError (List String)
  | [] => .ok []
  | .str s :: rest =>
    match asStringList rest with
    | .error e => .error e
    | .ok ss => .ok (s :: ss)
  | _ :: _ => .error (.jsonTypeError "cannot unmarshal element into string")

/-- Decode a response struct with a single `[]string` field tagged `key`
(`UUIDListResponse` / `ULIDListResponse` from `models.go`): a missing or
null field leaves the Go zero value (nil slice, modelled as `[]`). -/
def decodeStringListField (key : String) (body : String) : Except GoError (List String) :=
  match parseJson body with
  | .error e => .error e
  | .ok (.obj fields) =>
    match lookupField fields key with
    | none => .ok []
    | some .null => .ok []
    | some (.arr xs) => asStringList xs
    | some _ => .error (.jsonTypeError key)
  | .ok .null => .ok []
  | .ok _ => .error (.jsonTypeError "cannot unmarshal value into struct")

/-- Default base URL from `client.gen.go`. -/
def defaultBaseURL : String := "https://api.uuidify.io"

/-- Default User-Agent header value from `client.gen.go`. -/
def defaultUserAgent : String := "uuidify-go-sdk/1.0"

/-- Default HTTP timeout (`5 * time.Second`), in seconds. -/
def defaultHTTPTimeoutSeconds : Nat := 5

/-- An outgoing HTTP request as handed to the transport: method, fully
built URL, and the User-Agent header set by `doRequest`. -/
structure HttpRequest where
  method : String
  url : String
  userAgent : String
deriving DecidableEq, Repr

/-- An HTTP response: status code and (fully received) body. -/
structure HttpResponse where
  statusCode : Nat
  body : String
deriving DecidableEq, Repr

/-- Outcome of `http.Client.Do`: either a response or a transport error. -/
inductive TransportResult where
  | ok (resp : HttpResponse)
  | err (e : GoError)

/-- The ambient network: what actually answers a request that is sent. -/
def Net : Type := HttpRequest → TransportResult

/-- Modelling `*http.Client`: a timeout configuration plus the behaviour
of `Do` on a request. -/
structure HttpClient where
  timeoutSeconds : Nat
  respond : HttpRequest → TransportResult

/-- The `&http.Client{Timeout: defaultHTTPTimeout}` allocated as a
default; it sends requests to the ambient network. -/
def defaultHTTPClient (net : Net) : HttpClient :=
  { timeoutSeconds := defaultHTTPTimeoutSeconds, respond := net }

/-- The `Client` struct from `client.gen.go`.  `HTTPClient` is a nilable
pointer, hence an `Option`. -/
structure Client where
  BaseURL : String
  HTTPClient : Option HttpClient
  UserAgent : String

/-- A `ClientOption` mutates the client under construction; `nil` options
are permitted (and skipped by `NewClient`). -/
def ClientOption : Type := Option (Client → Client)

/-- One step of `NewClient`'s option loop: nil options are skipped,
others are applied to the client under construction. -/
def applyClientOption (c : Client) (opt : ClientOption) : Client :=
  match opt with
  | none => c
  | some f => f c

/-- `NewClient` from `client.gen.go`: start from the defaults, apply every
non-nil option, then re-apply the default for every field an option left
empty or nil. -/
def NewClient (net : Net) (opts : List ClientOption) : Client :=
  let c : Client :=
    { BaseURL := defaultBaseURL
      HTTPClient := some (defaultHTTPClient net)
      UserAgent := defaultUserAgent }
  let c := opts.foldl applyClientOption c
  let c := if c.BaseURL = "" then { c with BaseURL := defaultBaseURL } else c
  let c := if c.HTTPClient.isNone then
      { c with HTTPClient := some (defaultHTTPClient net) } else c
  if c.UserAgent = "" then { c with UserAgent := defaultUserAgent } else c

/-- `WithBaseURL` option. -/
def WithBaseURL (url : String) : ClientOption :=
  some fun c => { c with BaseURL := url }

/-- `WithHTTPClient` option. -/
def WithHTTPClient (client : Option HttpClient) : ClientOption :=
  some fun c => { c with HTTPClient := client }

/-- `WithUserAgent` option. -/
def WithUserAgent (ua : String) : ClientOption :=
  some fun c => { c with UserAgent := ua }

/-- The base actually used by `buildURL`: the configured one, or the
default when it is empty. -/
def effectiveBaseURL (c : Client) : String :=
  if c.BaseURL = "" then defaultBaseURL else c.BaseURL

/-- Modelling `url.JoinPath(base, "/")` followed by `url.Parse` and
`String()` on the clean-base domain only: base addresses of the form
`scheme://host[/path]` with no query, no fragment, no control characters
and no redundant slashes.  On that domain the round trip only appends the
trailing slash and neither call can fail.  Outside the domain Go's
net/url can reject the base with an error (which this total model cannot
represent) or normalise it differently (path cleaning, placing the
appended slash before a base-carried `?`); theorems built on this
function therefore describe clients whose base address lies in the
domain.  The trailing-slash test is spelled over the character list. -/
def strEndsWithSlash (s : String) : Bool :=
  match s.data.getLast? with
  | some c => c == '/'
  | none => false

def joinSlash (base : String) : String :=
  if strEndsWithSlash base then base else base ++ "/"

/-- Sorting of query parameters by key, as `url.Values.Encode` sorts its
keys with `sort.Strings` before emitting them. -/
def sortByKey (vs : List (String × String)) : List (String × String) :=
  List.insertionSort (fun p q => strLe p.1 q.1 = true) vs

/-- Emission step of `url.Values.Encode`: escaped `key=value` pairs joined
by `&`, in the order of the (already sorted) list. -/
def encodePairs : List (String × String) → String
  | [] => ""
  | [p] => queryEscape p.1 ++ "=" ++ queryEscape p.2
  | p :: rest => queryEscape p.1 ++ "=" ++ queryEscape p.2 ++ "&" ++ encodePairs rest

/-- `buildURL` from `client.gen.go`: default the base when empty, append
the trailing slash, and when parameters are given, set each non-empty key
into the URL's query values and encode them (sorted, escaped).  An empty
encoded query leaves the URL without a `?`, as `url.URL.String` does for
an empty `RawQuery`.  Two behaviours of the Go function live in the
external net/url collaborator and are outside this model's clean-base
domain: the error return when `url.JoinPath`/`url.Parse` reject the base
(which feeds `doRequest`'s `RequestError` branch), and the merging of
query parameters already present in the base via `parsed.Query()`.  On
the clean-base domain neither occurs, `parsed.Query()` starts empty, and
this total function agrees with the source. -/
def buildURL (c : Client) (query : List (String × String)) : String :=
  let target := joinSlash (effectiveBaseURL c)
  if query.length > 0 then
    let values := sortByKey (query.filter fun p => !(p.1 == ""))
    let encoded := encodePairs values
    if encoded = "" then target else target ++ "?" ++ encoded
  else target

/-- The request `doRequest` builds: a GET to the built URL, carrying the
configured User-Agent (or its default when the configured one is empty). -/
def mkRequest (c : Client) (query : List (String × String)) : HttpRequest :=
  { method := "GET"
    url := buildURL c query
    userAgent := if c.UserAgent = "" then defaultUserAgent else c.UserAgent }

/-- The transport `doRequest` ends up calling: the configured one, or a
default client on the ambient network when the configured one is nil. -/
def effTransport (net : Net) (c : Client) : HttpClient :=
  match c.HTTPClient with
  | none => defaultHTTPClient net
  | some h => h

/-- The `errors.Is(err, io.EOF)` remapping in `doRequest`: a clean EOF
from the decoder is reported as `io.ErrUnexpectedEOF`. -/
def normalizeEOF (e : GoError) : GoError :=
  if e = .ioEOF then .ioUnexpectedEOF else e

/-- `doRequest` from `client.gen.go`.  Returns the client as left behind
by the call (the receiver is a pointer, and the nil-`HTTPClient` branch
assigns to it), the requests handed to the transport, and the Go error or
decoded value.  The `v == nil` early return is omitted: every caller in
the package passes a non-nil decode target.  `ctx` is not modelled. -/
def doRequest (net : Net) (c : Option Client) (query : List (String × String))
    (decode : String → Except GoError α) :
    Option Client × List HttpRequest × Except GoError α :=
  match c with
  | none => (none, [], .error (.requestError (.basic "client is nil")))
  | some c =>
    let req := mkRequest c query
    let t := effTransport net c
    let c := match c.HTTPClient with
      | none => { c with HTTPClient := some (defaultHTTPClient net) }
      | some _ => c
    match t.respond req with
    | .err e => (some c, [req], .error (.requestError e))
    | .ok resp =>
      if resp.statusCode < 200 ∨ 300 ≤ resp.statusCode then
        let message := readBodySnippet resp.body
        let message := if message = "" then statusText resp.statusCode else message
        (some c, [req], .error (.apiError resp.statusCode message))
      else
        match decode resp.body with
        | .error e => (some c, [req], .error (.decodeError (normalizeEOF e)))
        | .ok a => (some c, [req], .ok a)

/-- Observable outcome of a public operation: the client state after the
call, the requests handed to the transport, and the Go return values
(primary value and error; the value is the zero value when the error is
non-nil, mirroring `return "", err` / `return nil, err`). -/
structure CallResult (α : Type) where
  client : Option Client
  calls : List HttpRequest
  value : α
  err : Option GoError

/-- Translate the `if err != nil { return zero, err }; return v, nil`
pattern shared by every operation. -/
def finishCall (zero : α) :
    Option Client × List HttpRequest × Except GoError α → CallResult α
  | (c, calls, .error e) => { client := c, calls := calls, value := zero, err := some e }
  | (c, calls, .ok a) => { client := c, calls := calls, value := a, err := none }

/-- `UUIDv1` from `client.gen.go`. -/
def UUIDv1 (net : Net) (c : Option Client) : CallResult String :=
  finishCall "" (doRequest net c [("version", "v1")] (decodeStringField "uuid"))

/-- `UUIDv4` from `client.gen.go`. -/
def UUIDv4 (net : Net) (c : Option Client) : CallResult String :=
  finishCall "" (doRequest net c [("version", "v4")] (decodeStringField "uuid"))

/-- `UUIDv7` from `client.gen.go`. -/
def UUIDv7 (net : Net) (c : Option Client) : CallResult String :=
  finishCall "" (doRequest net c [("version", "v7")] (decodeStringField "uuid"))

/-- `ULID` from `client.gen.go`. -/
def ULID (net : Net) (c : Option Client) : CallResult String :=
  finishCall "" (doRequest net c [("version", "ulid")] (decodeStringField "ulid"))

/-- `isSupportedUUIDVersion` from `client.gen.go`. -/
def isSupportedUUIDVersion (version : String) : Bool :=
  version == "v1" || version == "v4" || version == "v7"

/-- The validation error message for an unsupported version. -/
def versionValidationMsg : String := "version must be one of v1, v4, v7"

/-- The validation error message for an out-of-range count. -/
def countValidationMsg : String := "count must be between 1 and 1000"

/-- `UUIDBatch` from `client.gen.go`: validate the version and the count
(plain `fmt.Errorf` errors, no request issued), build the query map with
both `version` and `count`, then either decode the single-UUID shape
(when `count == 1`) or the list shape.  The Go nil slice returned on error
is modelled as `[]`. -/
def UUIDBatch (net : Net) (c : Option Client) (version : String) (count : Int) :
    CallResult (List String) :=
  if isSupportedUUIDVersion version = false then
    { client := c, calls := [], value := [], err := some (.basic versionValidationMsg) }
  else if count ≤ 0 ∨ 1000 < count then
    { client := c, calls := [], value := [], err := some (.basic countValidationMsg) }
  else
    let query := [("version", version), ("count", itoa count)]
    if count = 1 then
      match doRequest net c query (decodeStringField "uuid") with
      | (c2, calls, .error e) => { client := c2, calls := calls, value := [], err := some e }
      | (c2, calls, .ok u) => { client := c2, calls := calls, value := [u], err := none }
    else
      finishCall [] (doRequest net c query (decodeStringListField "uuids"))

/-- `ULIDBatch` from `client.gen.go`: validate the count, build the query
map with `version=ulid` and `count`, then either decode the single-ULID
shape (when `count == 1`) or the list shape. -/
def ULIDBatch (net : Net) (c : Option Client) (count : Int) :
    CallResult (List String) :=
  if count ≤ 0 ∨ 1000 < count then
    { client := c, calls := [], value := [], err := some (.basic countValidationMsg) }
  else
    let query := [("version", "ulid"), ("count", itoa count)]
    if count = 1 then
      match doRequest net c query (decodeStringField "ulid") with
      | (c2, calls, .error e) => { client := c2, calls := calls, value := [], err := some e }
      | (c2, calls, .ok u) => { client := c2, calls := calls, value := [u], err := none }
    else
      finishCall [] (doRequest net c query (decodeStringListField "ulids"))

/-- A failure shape from the error taxonomy: one of the three structured
error types, or one of the two local validation messages produced by the
batch operations before any request is issued. -/
def isClassifiedFailure (e : GoError) : Prop :=
  (∃ cause, e = .requestError cause) ∨ (∃ sc m, e = .apiError sc m) ∨
    (∃ cause, e = .decodeError cause) ∨
    e = .basic versionValidationMsg ∨ e = .basic countValidationMsg

/-- A transport that always fails, as a refused connection does. -/
def netRefused : Net := fun _ => .err (.basic "connection refused")

/-- A transport that always answers with the given response. -/
def respondWith (resp : HttpResponse) : Net := fun _ => .ok resp

/-- A client built by `NewClient` with no options against the given
network. -/
def testClient (net : Net) : Client := NewClient net []

/-- A client value built directly with a nil `HTTPClient` (the struct and
its fields are exported, so Go callers can construct this). -/
def bareClient : Client :=
  { BaseURL := defaultBaseURL, HTTPClient := none, UserAgent := defaultUserAgent }

/-- Response body holding a single UUID. -/
def singleUUIDBody : String := "\x7b\"uuid\":\"1234\"\x7d"

/-- Response body truncated mid-object, as in the decode-failure test. -/
def truncatedBody : String := "\x7b\"uuid\":"

/-- Response body of the status-400 test. -/
def badRequestBody : String := "\x7b\"error\":\"bad request\"\x7d"

/-- Response body holding a list of UUIDs. -/
def listUUIDBody : String := "\x7b\"uuids\":[\"a\",\"b\",\"c\"]\x7d"

/-- A transport answering 200 with a single-UUID body. -/
def netSingle : Net := respondWith { statusCode := 200, body := singleUUIDBody }

/-- A transport answering 200 with a UUID-list body. -/
def netList : Net := respondWith { statusCode := 200, body := listUUIDBody }

/-- A transport answering 200 with a truncated body. -/
def netTruncated : Net := respondWith { statusCode := 200, body := truncatedBody }

/-- A transport answering 400 with an error body. -/
def net400 : Net := respondWith { statusCode := 400, body := badRequestBody }

end Uuidify

namespace Uuidify

/-! Supporting lemmas about the string-ordering used for query keys. -/

theorem charListLe_total (a b : List Char) :
    charListLe a b = true ∨ charListLe b a = true := by
  induction a generalizing b with
  | nil => left; rfl
  | cons x xs ih =>
    cases b with
    | nil => right; rfl
    | cons y ys =>
      by_cases hxy : x < y
      · left; simp [charListLe, hxy]
      · by_cases hyx : y < x
        · right; simp [charListLe, hyx, asymm hyx]
        · rcases ih ys with h | h
          · left; simp [charListLe, hxy, hyx, h]
          · right; simp [charListLe, hxy, hyx, h]

theorem charListLe_trans {a b c : List Char} (hab : charListLe a b = true)
    (hbc : charListLe b c = true) : charListLe a c = true := by
  induction a generalizing b c with
  | nil => rfl
  | cons x xs ih =>
    cases b with
    | nil => simp [charListLe] at hab
    | cons y ys =>
      cases c with
      | nil => simp [charListLe] at hbc
      | cons z zs =>
        by_cases hxy : x < y
        · by_cases hyz : y < z
          · simp [charListLe, lt_trans hxy hyz]
          · by_cases hzy : z < y
            · simp [charListLe, hyz, hzy] at hbc
            · have : y = z := le_antisymm (le_of_not_lt hzy) (le_of_not_lt hyz)
              subst this
              simp [charListLe, hxy]
        · by_cases hyx : y < x
          · simp [charListLe, hxy, hyx] at hab
          · have hxy' : x = y := le_antisymm (le_of_not_lt hyx) (le_of_not_lt hxy)
            subst hxy'
            simp only [charListLe, if_neg hxy, if_neg hyx] at hab
            by_cases hyz : x < z
            · simp [charListLe, hyz]
            · by_cases hzy : z < x
              · simp [charListLe, hyz, hzy] at hbc
              · simp only [charListLe, if_neg hyz, if_neg hzy] at hbc ⊢
                exact ih hab hbc

theorem charListLe_antisymm {a b : List Char} (hab : charListLe a b = true)
    (hba : charListLe b a = true) : a = b := by
  induction a generalizing b with
  | nil =>
    cases b with
    | nil => rfl
    | cons y ys => simp [charListLe] at hba
  | cons x xs ih =>
    cases b with
    | nil => simp [charListLe] at hab
    | cons y ys =>
      by_cases hxy : x < y
      · simp [charListLe, hxy, asymm hxy] at hba
      · by_cases hyx : y < x
        · simp [charListLe, hxy, hyx] at hab
        · have hx : x = y := le_antisymm (le_of_not_lt hyx) (le_of_not_lt hxy)
          subst hx
          simp only [charListLe, if_neg hxy, if_neg hyx] at hab hba
          exact congrArg (x :: ·) (ih hab hba)

theorem strLe_total (a b : String) : strLe a b = true ∨ strLe b a = true :=
  charListLe_total a.data b.data

theorem strLe_trans {a b c : String} (hab : strLe a b = true)
    (hbc : strLe b c = true) : strLe a c = true :=
  charListLe_trans hab hbc

theorem strLe_antisymm {a b : String} (hab : strLe a b = true)
    (hba : strLe b a = true) : a = b := by
  have h := charListLe_antisymm hab hba
  cases a; cases b; cases h; rfl

/-- C10: `NewClient` always returns a fully populated configuration: for
every sequence of options (including nil options and options that set
fields to the empty string or nil), the returned client has a non-empty
base URL, a non-nil HTTP client, and a non-empty User-Agent, because the
defaults are re-applied after all options have run. -/
theorem NewClient_always_populated (net : Net) (opts : List ClientOption) :
    (NewClient net opts).BaseURL ≠ "" ∧
      (NewClient net opts).HTTPClient.isSome = true ∧
      (NewClient net opts).UserAgent ≠ "" := by
  unfold NewClient
  dsimp only
  generalize opts.foldl applyClientOption _ = c0
  split_ifs <;> cases hc : c0.HTTPClient <;> simp_all <;> decide

/-- C2 (counterexample): the configuration is not always unchanged by a
call.  For a client whose `HTTPClient` field is nil at call time,
`doRequest` assigns the default HTTP client to the field, so the
transport-handle field differs after the call. -/
theorem doRequest_mutates_nil_httpclient :
    bareClient.HTTPClient.isSome = false ∧
      ((doRequest netRefused (some bareClient) [("version", "v4")]
          (decodeStringField "uuid")).1.map fun c => c.HTTPClient.isSome) = some true :=
  ⟨rfl, rfl⟩

/-- C2 (amended): for every client whose transport handle is non-nil — in
particular every client built by `NewClient` — every call leaves the whole
configuration exactly as it was; when the handle is nil at call time, the
call's only effect on the configuration is to set the handle to the
default HTTP client, so in every case the base address and the
identifying header value are unchanged by the call. -/
theorem doRequest_preserves_config {α} (net : Net) (c : Client)
    (query : List (String × String)) (decode : String → Except GoError α) :
    ((∃ h, c.HTTPClient = some h) →
      (doRequest net (some c) query decode).1 = some c) ∧
    (c.HTTPClient = none →
      (doRequest net (some c) query decode).1 =
        some { c with HTTPClient := some (defaultHTTPClient net) }) ∧
    (∀ post, (doRequest net (some c) query decode).1 = some post →
      post.BaseURL = c.BaseURL ∧ post.UserAgent = c.UserAgent) := by
  cases hc : c.HTTPClient with
  | some h =>
    have hfst : (doRequest net (some c) query decode).1 = some c := by
      simp only [doRequest, hc]
      split
      · rfl
      · split
        · rfl
        · split <;> rfl
    refine ⟨fun _ => hfst,
      fun hn => Option.noConfusion hn,
      fun post hpost => ?_⟩
    rw [hfst] at hpost
    cases hpost
    exact ⟨rfl, rfl⟩
  | none =>
    have hfst : (doRequest net (some c) query decode).1 =
        some { c with HTTPClient := some (defaultHTTPClient net) } := by
      simp only [doRequest, hc]
      split
      · rfl
      · split
        · rfl
        · split <;> rfl
    refine ⟨fun hex => ?_, fun _ => hfst, fun post hpost => ?_⟩
    · obtain ⟨h, hh⟩ := hex
      exact Option.noConfusion hh
    · rw [hfst] at hpost
      cases hpost
      exact ⟨rfl, rfl⟩

/-- C2 (witness): a concrete client with a non-nil transport handle is
returned unchanged by a call. -/
theorem doRequest_preserves_config_witness :
    (doRequest netRefused (some (testClient netRefused)) [("version", "v4")]
        (decodeStringField "uuid")).1 = some (testClient netRefused) :=
  (doRequest_preserves_config netRefused (testClient netRefused) [("version", "v4")]
    (decodeStringField "uuid")).1 ⟨defaultHTTPClient netRefused, rfl⟩

/-- C3: for every unsupported kind and every count outside 1..1000, the
batch operations reject locally — `UUIDBatch` for the bad kind, and both
`UUIDBatch` and `ULIDBatch` for the bad count — returning the
validation-classified error and issuing zero network calls (the transport
is never invoked). -/
theorem batch_validation_no_network (net : Net) (c : Option Client)
    (badVersion goodVersion : String) (anyCount badCount : Int)
    (hbad : isSupportedUUIDVersion badVersion = false)
    (hgood : isSupportedUUIDVersion goodVersion = true)
    (hcount : badCount ≤ 0 ∨ 1000 < badCount) :
    UUIDBatch net c badVersion anyCount =
      { client := c, calls := [], value := [], err := some (.basic versionValidationMsg) } ∧
    UUIDBatch net c goodVersion badCount =
      { client := c, calls := [], value := [], err := some (.basic countValidationMsg) } ∧
    ULIDBatch net c badCount =
      { client := c, calls := [], value := [], err := some (.basic countValidationMsg) } := by
  refine ⟨?_, ?_, ?_⟩
  · simp only [UUIDBatch]
    rw [if_pos hbad]
  · simp only [UUIDBatch]
    rw [if_neg (by simp [hgood]), if_pos hcount]
  · simp only [ULIDBatch]
    rw [if_pos hcount]

/-! Supporting lemmas about strings, escaping and decimal conversion. -/

theorem strExt {a b : String} (h : a.data = b.data) : a = b := by
  cases a; cases b; cases h; rfl

theorem strData_append (a b : String) : (a ++ b).data = a.data ++ b.data := rfl

theorem strAppend_assoc (a b c : String) : a ++ b ++ c = a ++ (b ++ c) :=
  strExt (by simp [strData_append])

theorem str_ne_empty_of_length_pos {s : String} (h : 0 < s.length) : s ≠ "" := by
  intro he
  subst he
  simp at h

theorem escapeQueryChar_unreserved {ch : Char} (h : isUnreservedQueryChar ch = true) :
    escapeQueryChar ch = [ch] := by
  simp [escapeQueryChar, h]

theorem flatMap_escape_of_unreserved {cs : List Char}
    (h : ∀ ch ∈ cs, isUnreservedQueryChar ch = true) :
    cs.flatMap escapeQueryChar = cs := by
  induction cs with
  | nil => rfl
  | cons a l ih =>
    have ha := h a (List.mem_cons_self a l)
    have hl := fun ch hch => h ch (List.mem_cons_of_mem _ hch)
    calc (a :: l).flatMap escapeQueryChar
        = escapeQueryChar a ++ l.flatMap escapeQueryChar := by
          simp [List.flatMap_cons]
      _ = a :: l := by rw [escapeQueryChar_unreserved ha, ih hl]; rfl

theorem queryEscape_of_unreserved {s : String}
    (h : ∀ ch ∈ s.data, isUnreservedQueryChar ch = true) : queryEscape s = s :=
  strExt (flatMap_escape_of_unreserved h)

theorem digitChar_unreserved {m : Nat} (h : m < 10) :
    isUnreservedQueryChar (Nat.digitChar m) = true := by
  interval_cases m <;> decide

theorem natDigitsAux_unreserved (fuel : Nat) : ∀ (n : Nat) (acc : List Char),
    (∀ ch ∈ acc, isUnreservedQueryChar ch = true) →
    ∀ ch ∈ natDigitsAux fuel n acc, isUnreservedQueryChar ch = true := by
  induction fuel with
  | zero =>
    intro n acc hacc
    simpa [natDigitsAux] using hacc
  | succ f ih =>
    intro n acc hacc ch hch
    by_cases hn : n = 0
    · rw [natDigitsAux, if_pos hn] at hch
      exact hacc ch hch
    · rw [natDigitsAux, if_neg hn] at hch
      refine ih (n / 10) _ ?_ ch hch
      intro ch2 hch2
      rcases List.mem_cons.mp hch2 with h2 | h2
      · subst h2
        exact digitChar_unreserved (Nat.mod_lt n (by omega))
      · exact hacc ch2 h2

theorem itoaNat_chars_unreserved (n : Nat) :
    ∀ ch ∈ (itoaNat n).data, isUnreservedQueryChar ch = true := by
  unfold itoaNat
  by_cases h : n = 0
  · rw [if_pos h]
    intro ch hch
    have : ch = '0' := by simpa using hch
    subst this
    decide
  · rw [if_neg h]
    exact natDigitsAux_unreserved n n [] (by simp)

theorem itoa_chars_unreserved (i : Int) :
    ∀ ch ∈ (itoa i).data, isUnreservedQueryChar ch = true := by
  unfold itoa
  by_cases h : i < 0
  · rw [if_pos h]
    intro ch hch
    rw [strData_append] at hch
    rcases List.mem_append.mp hch with h2 | h2
    · have : ch = '-' := by simpa using h2
      subst this
      decide
    · exact itoaNat_chars_unreserved _ ch h2
  · rw [if_neg h]
    exact itoaNat_chars_unreserved _

theorem queryEscape_itoa (i : Int) : queryEscape (itoa i) = itoa i :=
  queryEscape_of_unreserved (itoa_chars_unreserved i)

/-! Supporting lemmas about `buildURL` on the concrete query maps the
operations construct. -/

theorem encodePair_ne_empty (k v : String) :
    queryEscape k ++ "=" ++ queryEscape v ≠ "" := by
  apply str_ne_empty_of_length_pos
  have h1 : (queryEscape k ++ "=" ++ queryEscape v).length =
      (queryEscape k ++ "=").length + (queryEscape v).length := String.length_append _ _
  have h2 : (queryEscape k ++ "=").length = (queryEscape k).length + 1 :=
    String.length_append _ _
  omega

theorem buildURL_one (c : Client) (k v : String) (hk : (k == "") = false) :
    buildURL c [(k, v)] =
      joinSlash (effectiveBaseURL c) ++ "?" ++
        (queryEscape k ++ "=" ++ queryEscape v) := by
  unfold buildURL
  rw [if_pos (by simp)]
  have hf : List.filter (fun p => !(p.1 == "")) [(k, v)] = [(k, v)] := by
    simp [List.filter, hk]
  rw [hf]
  have hs : sortByKey [(k, v)] = [(k, v)] := rfl
  rw [hs]
  dsimp only
  have he : encodePairs [(k, v)] = queryEscape k ++ "=" ++ queryEscape v := rfl
  rw [he, if_neg (encodePair_ne_empty k v)]

theorem buildURL_version_count (c : Client) (ver cnt : String)
    (hlt : strLe "version" "count" = false) :
    buildURL c [("version", ver), ("count", cnt)] =
      joinSlash (effectiveBaseURL c) ++ "?" ++
        (queryEscape "count" ++ "=" ++ queryEscape cnt ++ "&" ++
          (queryEscape "version" ++ "=" ++ queryEscape ver)) := by
  unfold buildURL
  rw [if_pos (by simp)]
  have hf : List.filter (fun p => !(p.1 == "")) [("version", ver), ("count", cnt)] =
      [("version", ver), ("count", cnt)] := by
    simp [List.filter]
  rw [hf]
  have hs : sortByKey [("version", ver), ("count", cnt)] =
      [("count", cnt), ("version", ver)] := by
    unfold sortByKey
    show List.orderedInsert _ ("version", ver)
        (List.orderedInsert _ ("count", cnt) []) = _
    simp only [List.orderedInsert]
    rw [if_neg (by rw [hlt]; simp)]
  rw [hs]
  dsimp only
  have he : encodePairs [("count", cnt), ("version", ver)] =
      queryEscape "count" ++ "=" ++ queryEscape cnt ++ "&" ++
        (queryEscape "version" ++ "=" ++ queryEscape ver) := rfl
  rw [he]
  rw [if_neg ?hne]
  case hne =>
    apply str_ne_empty_of_length_pos
    have h1 := String.length_append
      (queryEscape "count" ++ "=" ++ queryEscape cnt ++ "&")
      (queryEscape "version" ++ "=" ++ queryEscape ver)
    have h2 : (queryEscape "count" ++ "=" ++ queryEscape cnt ++ "&").length =
        (queryEscape "count" ++ "=" ++ queryEscape cnt).length + 1 :=
      String.length_append _ _
    omega

/-! Supporting lemmas about the request pipeline. -/

theorem dropWhile_isGoSpace_length_le (l : List Char) :
    (l.dropWhile isGoSpace).length ≤ l.length := by
  induction l with
  | nil => simp
  | cons a l ih =>
    by_cases h : isGoSpace a
    · simp only [List.dropWhile, h, List.length_cons]
      omega
    · simp [List.dropWhile, h]

theorem trimSpace_length_le (cs : List Char) : (trimSpace cs).length ≤ cs.length := by
  unfold trimSpace
  calc ((cs.dropWhile isGoSpace).reverse.dropWhile isGoSpace).reverse.length
      = ((cs.dropWhile isGoSpace).reverse.dropWhile isGoSpace).length := by
        simp
    _ ≤ (cs.dropWhile isGoSpace).reverse.length := dropWhile_isGoSpace_length_le _
    _ = (cs.dropWhile isGoSpace).length := by simp
    _ ≤ cs.length := dropWhile_isGoSpace_length_le _

theorem readBodySnippet_length_le (body : String) :
    (readBodySnippet body).length ≤ 4096 := by
  have h1 : (readBodySnippet body).length = (trimSpace (body.data.take 4096)).length := rfl
  rw [h1]
  calc (trimSpace (body.data.take 4096)).length
      ≤ (body.data.take 4096).length := trimSpace_length_le _
    _ ≤ 4096 := List.length_take_le _ _

theorem finishCall_err_iff {α} (zero : α)
    (r : Option Client × List HttpRequest × Except GoError α) (e : GoError) :
    (finishCall zero r).err = some e ↔ r.2.2 = .error e := by
  obtain ⟨c, calls, res⟩ := r
  cases res <;> simp [finishCall]

theorem doRequest_error_shape {α} (net : Net) (c : Option Client)
    (query : List (String × String)) (decode : String → Except GoError α) (e : GoError)
    (h : (doRequest net c query decode).2.2 = .error e) :
    (∃ cause, e = .requestError cause) ∨ (∃ sc m, e = .apiError sc m) ∨
      (∃ cause, e = .decodeError cause) := by
  cases c with
  | none =>
    simp only [doRequest, Except.error.injEq] at h
    exact Or.inl ⟨_, h.symm⟩
  | some c =>
    simp only [doRequest] at h
    split at h
    · exact Or.inl ⟨_, (Except.error.injEq _ _).mp h |>.symm⟩
    · split at h
      · exact Or.inr (Or.inl ⟨_, _, (Except.error.injEq _ _).mp h |>.symm⟩)
      · split at h
        · exact Or.inr (Or.inr ⟨_, (Except.error.injEq _ _).mp h |>.symm⟩)
        · exact absurd h (by simp)

theorem finishCall_doRequest_classified {α} (net : Net) (c : Option Client)
    (query : List (String × String)) (decode : String → Except GoError α)
    (zero : α) (e : GoError)
    (he : (finishCall zero (doRequest net c query decode)).err = some e) :
    isClassifiedFailure e := by
  have h := (finishCall_err_iff zero _ e).mp he
  rcases doRequest_error_shape net c query decode e h with h' | h' | h'
  · exact Or.inl h'
  · exact Or.inr (Or.inl h')
  · exact Or.inr (Or.inr (Or.inl h'))

/-- C3 (witness): `UUIDBatch` with kind `v9`, `UUIDBatch` with count 0 and
`ULIDBatch` with count 0 all reject locally without any network call. -/
theorem batch_validation_no_network_witness :
    UUIDBatch netRefused (some (testClient netRefused)) "v9" 2 =
      { client := some (testClient netRefused), calls := [], value := [],
        err := some (.basic versionValidationMsg) } ∧
    UUIDBatch netRefused (some (testClient netRefused)) "v4" 0 =
      { client := some (testClient netRefused), calls := [], value := [],
        err := some (.basic countValidationMsg) } ∧
    ULIDBatch netRefused (some (testClient netRefused)) 0 =
      { client := some (testClient netRefused), calls := [], value := [],
        err := some (.basic countValidationMsg) } :=
  batch_validation_no_network netRefused (some (testClient netRefused)) "v9" "v4" 2 0
    rfl rfl (Or.inl (by decide))

/-- C4: for every response whose status code is outside 200–299, the
request executor returns an `APIError` carrying that status code and a
message taken from an at-most-4096-byte snippet of the body, falling back
to the standard reason string for the code when the body is empty; the
decoder is never consulted (the same error results for every decode
function), so no result is decoded. -/
theorem doRequest_non2xx_api_error {α} (net : Net) (c : Client)
    (query : List (String × String)) (decode : String → Except GoError α)
    (resp : HttpResponse)
    (hresp : (effTransport net c).respond (mkRequest c query) = .ok resp)
    (hstatus : resp.statusCode < 200 ∨ 300 ≤ resp.statusCode) :
    (doRequest net (some c) query decode).2.2 =
      .error (.apiError resp.statusCode
        (if readBodySnippet resp.body = "" then statusText resp.statusCode
          else readBodySnippet resp.body)) ∧
    (resp.body = "" →
      (doRequest net (some c) query decode).2.2 =
        .error (.apiError resp.statusCode (statusText resp.statusCode))) ∧
    (readBodySnippet resp.body).length ≤ 4096 := by
  have hmain : (doRequest net (some c) query decode).2.2 =
      .error (.apiError resp.statusCode
        (if readBodySnippet resp.body = "" then statusText resp.statusCode
          else readBodySnippet resp.body)) := by
    simp only [doRequest, hresp]
    rw [if_pos hstatus]
  refine ⟨hmain, fun hbody => ?_, readBodySnippet_length_le _⟩
  rw [hmain, hbody]
  simp [readBodySnippet, trimSpace]

/-- C4 (witness): a 400 response with body `\x7b"error":"bad request"\x7d`
yields an `APIError` with status code 400 and a message derived from the
body. -/
theorem doRequest_non2xx_api_error_witness :
    (doRequest net400 (some (testClient net400)) [("version", "v4")]
        (decodeStringField "uuid")).2.2 =
      .error (.apiError 400
        (if readBodySnippet badRequestBody = "" then statusText 400
          else readBodySnippet badRequestBody)) :=
  (doRequest_non2xx_api_error net400 (testClient net400) [("version", "v4")]
    (decodeStringField "uuid") { statusCode := 400, body := badRequestBody }
    rfl (Or.inr (by decide))).1

/-- C5: for every successful (2xx) response whose body fails to decode
(truncated, malformed, or entirely empty JSON), the operation fails with
a `DecodeError` carrying the underlying parse cause (a clean EOF being
reported as `io.ErrUnexpectedEOF`), and returns no partial result: the
empty string for the single fetch, the nil sequence for the batch fetch. -/
theorem decode_failure_no_partial_result (net : Net) (c : Client) :
    (∀ resp e,
      (effTransport net c).respond (mkRequest c [("version", "v4")]) = .ok resp →
      200 ≤ resp.statusCode → resp.statusCode < 300 →
      decodeStringField "uuid" resp.body = .error e →
      (UUIDv4 net (some c)).value = "" ∧
        (UUIDv4 net (some c)).err = some (.decodeError (normalizeEOF e))) ∧
    (∀ version count resp e, isSupportedUUIDVersion version = true →
      1 < count → count ≤ 1000 →
      (effTransport net c).respond
          (mkRequest c [("version", version), ("count", itoa count)]) = .ok resp →
      200 ≤ resp.statusCode → resp.statusCode < 300 →
      decodeStringListField "uuids" resp.body = .error e →
      (UUIDBatch net (some c) version count).value = [] ∧
        (UUIDBatch net (some c) version count).err =
          some (.decodeError (normalizeEOF e))) := by
  constructor
  · intro resp e hresp h200 h300 hdec
    have hop : UUIDv4 net (some c) =
        finishCall "" (doRequest net (some c) [("version", "v4")]
          (decodeStringField "uuid")) := rfl
    rw [hop]
    simp only [doRequest, hresp]
    rw [if_neg (by omega), hdec]
    exact ⟨rfl, rfl⟩
  · intro version count resp e hver hlo hhi hresp h200 h300 hdec
    simp only [UUIDBatch]
    rw [if_neg (by simp [hver]), if_neg (by omega), if_neg (by omega)]
    simp only [doRequest, hresp]
    rw [if_neg (by omega), hdec]
    exact ⟨rfl, rfl⟩

/-- C5 (witness): a 200 response with the truncated body `\x7b"uuid":`
yields a `DecodeError` (with cause `io.ErrUnexpectedEOF`) and the empty
string as the value. -/
theorem decode_failure_no_partial_result_witness :
    (UUIDv4 netTruncated (some (testClient netTruncated))).value = "" ∧
      (UUIDv4 netTruncated (some (testClient netTruncated))).err =
        some (.decodeError (normalizeEOF .ioUnexpectedEOF)) :=
  (decode_failure_no_partial_result netTruncated (testClient netTruncated)).1
    { statusCode := 200, body := truncatedBody } .ioUnexpectedEOF
    rfl (by decide) (by decide) rfl

/-- C7: every failure returned by a public operation is one of the four
taxonomy variants — `RequestError`, `APIError`, `DecodeError`, or one of
the two local validation errors — and the cause-chain is preserved for
programmatic inspection: unwrapping a `RequestError` or `DecodeError`
yields exactly the underlying cause rather than a flattened string. -/
theorem public_errors_classified (net : Net) (c : Option Client)
    (version : String) (count : Int) :
    (∀ e, (UUIDv1 net c).err = some e → isClassifiedFailure e) ∧
    (∀ e, (UUIDv4 net c).err = some e → isClassifiedFailure e) ∧
    (∀ e, (UUIDv7 net c).err = some e → isClassifiedFailure e) ∧
    (∀ e, (ULID net c).err = some e → isClassifiedFailure e) ∧
    (∀ e, (UUIDBatch net c version count).err = some e → isClassifiedFailure e) ∧
    (∀ e, (ULIDBatch net c count).err = some e → isClassifiedFailure e) ∧
    (∀ cause, errorUnwrap (.requestError cause) = some cause) ∧
    (∀ cause, errorUnwrap (.decodeError cause) = some cause) := by
  refine ⟨fun e he => finishCall_doRequest_classified _ _ _ _ _ _ he,
    fun e he => finishCall_doRequest_classified _ _ _ _ _ _ he,
    fun e he => finishCall_doRequest_classified _ _ _ _ _ _ he,
    fun e he => finishCall_doRequest_classified _ _ _ _ _ _ he,
    ?_, ?_, fun _ => rfl, fun _ => rfl⟩
  · intro e he
    by_cases hv : isSupportedUUIDVersion version = false
    · rw [UUIDBatch, if_pos hv] at he
      cases he
      exact Or.inr (Or.inr (Or.inr (Or.inl rfl)))
    · rw [UUIDBatch, if_neg hv] at he
      by_cases hcnt : count ≤ 0 ∨ 1000 < count
      · rw [if_pos hcnt] at he
        cases he
        exact Or.inr (Or.inr (Or.inr (Or.inr rfl)))
      · rw [if_neg hcnt] at he
        by_cases h1 : count = 1
        · rw [if_pos h1] at he
          rcases hdr : doRequest net c [("version", version), ("count", itoa count)]
              (decodeStringField "uuid") with ⟨c2, calls, res⟩
          rw [hdr] at he
          cases res with
          | error e2 =>
            simp only [Option.some.injEq] at he
            subst he
            rcases doRequest_error_shape net c _ (decodeStringField "uuid") e2
                (by rw [hdr]) with h' | h' | h'
            · exact Or.inl h'
            · exact Or.inr (Or.inl h')
            · exact Or.inr (Or.inr (Or.inl h'))
          | ok a => simp at he
        · rw [if_neg h1] at he
          exact finishCall_doRequest_classified _ _ _ _ _ _ he
  · intro e he
    by_cases hcnt : count ≤ 0 ∨ 1000 < count
    · rw [ULIDBatch, if_pos hcnt] at he
      cases he
      exact Or.inr (Or.inr (Or.inr (Or.inr rfl)))
    · rw [ULIDBatch, if_neg hcnt] at he
      by_cases h1 : count = 1
      · rw [if_pos h1] at he
        rcases hdr : doRequest net c [("version", "ulid"), ("count", itoa count)]
            (decodeStringField "ulid") with ⟨c2, calls, res⟩
        rw [hdr] at he
        cases res with
        | error e2 =>
          simp only [Option.some.injEq] at he
          subst he
          rcases doRequest_error_shape net c _ (decodeStringField "ulid") e2
              (by rw [hdr]) with h' | h' | h'
          · exact Or.inl h'
          · exact Or.inr (Or.inl h')
          · exact Or.inr (Or.inr (Or.inl h'))
        | ok a => simp at he
      · rw [if_neg h1] at he
        exact finishCall_doRequest_classified _ _ _ _ _ _ he

/-- C7 (witness): the failure of a batch call with an unsupported kind is
a taxonomy variant. -/
theorem public_errors_classified_witness :
    isClassifiedFailure (.basic versionValidationMsg) :=
  (public_errors_classified netRefused (some (testClient netRefused)) "v9" 2).2.2.2.2.1
    (.basic versionValidationMsg) rfl

theorem finishCall_calls {α} (zero : α)
    (r : Option Client × List HttpRequest × Except GoError α) :
    (finishCall zero r).calls = r.2.1 := by
  obtain ⟨c, calls, res⟩ := r
  cases res <;> rfl

theorem finishCall_of_ok {α} (zero : α)
    (r : Option Client × List HttpRequest × Except GoError α) (a : α)
    (h : r.2.2 = .ok a) :
    (finishCall zero r).value = a ∧ (finishCall zero r).err = none := by
  obtain ⟨c, calls, res⟩ := r
  cases res with
  | error e => exact absurd h (by simp)
  | ok b =>
    have : b = a := by simpa using h
    subst this
    exact ⟨rfl, rfl⟩

theorem doRequest_success {α} (net : Net) (c : Client)
    (query : List (String × String)) (decode : String → Except GoError α)
    (resp : HttpResponse) (a : α)
    (hresp : (effTransport net c).respond (mkRequest c query) = .ok resp)
    (h200 : 200 ≤ resp.statusCode) (h300 : resp.statusCode < 300)
    (hdec : decode resp.body = .ok a) :
    (doRequest net (some c) query decode).2.1 = [mkRequest c query] ∧
      (doRequest net (some c) query decode).2.2 = .ok a := by
  simp only [doRequest, hresp]
  rw [if_neg (by omega), hdec]
  exact ⟨rfl, rfl⟩

theorem singleFetch_spec (net : Net) (c : Client) (ver : String)
    (resp : HttpResponse) (u : String)
    (hresp : (effTransport net c).respond (mkRequest c [("version", ver)]) = .ok resp)
    (h200 : 200 ≤ resp.statusCode) (h300 : resp.statusCode < 300)
    (hdec : decodeStringField "uuid" resp.body = .ok u) :
    (finishCall "" (doRequest net (some c) [("version", ver)]
        (decodeStringField "uuid"))).calls = [mkRequest c [("version", ver)]] ∧
      (mkRequest c [("version", ver)]).url =
        joinSlash (effectiveBaseURL c) ++ "?" ++
          (queryEscape "version" ++ "=" ++ queryEscape ver) ∧
      (finishCall "" (doRequest net (some c) [("version", ver)]
        (decodeStringField "uuid"))).value = u ∧
      (finishCall "" (doRequest net (some c) [("version", ver)]
        (decodeStringField "uuid"))).err = none := by
  obtain ⟨hcalls, hok⟩ := doRequest_success net c [("version", ver)]
    (decodeStringField "uuid") resp u hresp h200 h300 hdec
  refine ⟨?_, ?_, (finishCall_of_ok "" _ u hok).1, (finishCall_of_ok "" _ u hok).2⟩
  · rw [finishCall_calls, hcalls]
  · rw [show (mkRequest c [("version", ver)]).url =
      buildURL c [("version", ver)] from rfl, buildURL_one c "version" ver rfl]

/-- C8: for every valid kind among v1, v4 and v7, the single fetch
operation sends one request whose `version` query parameter equals the
kind and, on a 2xx response whose body decodes, returns exactly the string
found in the decoded `uuid` field. -/
theorem single_fetch_sends_version_returns_uuid (net : Net) (c : Client) :
    (∀ resp u,
      (effTransport net c).respond (mkRequest c [("version", "v1")]) = .ok resp →
      200 ≤ resp.statusCode → resp.statusCode < 300 →
      decodeStringField "uuid" resp.body = .ok u →
      (UUIDv1 net (some c)).calls = [mkRequest c [("version", "v1")]] ∧
        (mkRequest c [("version", "v1")]).url =
          joinSlash (effectiveBaseURL c) ++ "?" ++ "version=v1" ∧
        (UUIDv1 net (some c)).value = u ∧ (UUIDv1 net (some c)).err = none) ∧
    (∀ resp u,
      (effTransport net c).respond (mkRequest c [("version", "v4")]) = .ok resp →
      200 ≤ resp.statusCode → resp.statusCode < 300 →
      decodeStringField "uuid" resp.body = .ok u →
      (UUIDv4 net (some c)).calls = [mkRequest c [("version", "v4")]] ∧
        (mkRequest c [("version", "v4")]).url =
          joinSlash (effectiveBaseURL c) ++ "?" ++ "version=v4" ∧
        (UUIDv4 net (some c)).value = u ∧ (UUIDv4 net (some c)).err = none) ∧
    (∀ resp u,
      (effTransport net c).respond (mkRequest c [("version", "v7")]) = .ok resp →
      200 ≤ resp.statusCode → resp.statusCode < 300 →
      decodeStringField "uuid" resp.body = .ok u →
      (UUIDv7 net (some c)).calls = [mkRequest c [("version", "v7")]] ∧
        (mkRequest c [("version", "v7")]).url =
          joinSlash (effectiveBaseURL c) ++ "?" ++ "version=v7" ∧
        (UUIDv7 net (some c)).value = u ∧ (UUIDv7 net (some c)).err = none) :=
  ⟨fun resp u hresp h200 h300 hdec =>
      singleFetch_spec net c "v1" resp u hresp h200 h300 hdec,
    fun resp u hresp h200 h300 hdec =>
      singleFetch_spec net c "v4" resp u hresp h200 h300 hdec,
    fun resp u hresp h200 h300 hdec =>
      singleFetch_spec net c "v7" resp u hresp h200 h300 hdec⟩

/-- C8 (witness): a concrete v4 fetch against a transport answering 200
with a single-UUID body sends `?version=v4` and returns the decoded
`uuid` value. -/
theorem single_fetch_sends_version_returns_uuid_witness :
    (UUIDv4 netSingle (some (testClient netSingle))).calls =
        [mkRequest (testClient netSingle) [("version", "v4")]] ∧
      (mkRequest (testClient netSingle) [("version", "v4")]).url =
        joinSlash (effectiveBaseURL (testClient netSingle)) ++ "?" ++ "version=v4" ∧
      (UUIDv4 netSingle (some (testClient netSingle))).value = "1234" ∧
      (UUIDv4 netSingle (some (testClient netSingle))).err = none :=
  (single_fetch_sends_version_returns_uuid netSingle (testClient netSingle)).2.1
    { statusCode := 200, body := singleUUIDBody } "1234" rfl (by decide) (by decide) rfl

/-- C9: for every valid kind and every count with 1 < count ≤ 1000, the
batch operation sends one request carrying `version=kind` and
`count=count` in its query (sorted by parameter name) and, on a 2xx
response whose body decodes, returns a sequence equal — in length and
element order — to the decoded `uuids` array. -/
theorem UUIDBatch_sends_version_count (net : Net) (c : Client) (version : String)
    (count : Int) (resp : HttpResponse) (xs : List String)
    (hver : isSupportedUUIDVersion version = true)
    (hlo : 1 < count) (hhi : count ≤ 1000)
    (hresp : (effTransport net c).respond
        (mkRequest c [("version", version), ("count", itoa count)]) = .ok resp)
    (h200 : 200 ≤ resp.statusCode) (h300 : resp.statusCode < 300)
    (hdec : decodeStringListField "uuids" resp.body = .ok xs) :
    (UUIDBatch net (some c) version count).calls =
        [mkRequest c [("version", version), ("count", itoa count)]] ∧
      (mkRequest c [("version", version), ("count", itoa count)]).url =
        joinSlash (effectiveBaseURL c) ++ "?" ++
          ("count=" ++ itoa count ++ "&" ++ ("version=" ++ version)) ∧
      (UUIDBatch net (some c) version count).value = xs ∧
      (UUIDBatch net (some c) version count).err = none := by
  obtain ⟨hcalls, hok⟩ := doRequest_success net c
    [("version", version), ("count", itoa count)] (decodeStringListField "uuids")
    resp xs hresp h200 h300 hdec
  have hbatch : UUIDBatch net (some c) version count =
      finishCall [] (doRequest net (some c) [("version", version), ("count", itoa count)]
        (decodeStringListField "uuids")) := by
    simp only [UUIDBatch]
    rw [if_neg (by simp [hver]), if_neg (by omega), if_neg (by omega)]
  have hurl : (mkRequest c [("version", version), ("count", itoa count)]).url =
      joinSlash (effectiveBaseURL c) ++ "?" ++
        ("count=" ++ itoa count ++ "&" ++ ("version=" ++ version)) := by
    rw [show (mkRequest c [("version", version), ("count", itoa count)]).url =
      buildURL c [("version", version), ("count", itoa count)] from rfl]
    rw [buildURL_version_count c version (itoa count) (by decide)]
    rw [queryEscape_itoa]
    rw [show queryEscape "count" ++ "=" = ("count=" : String) from rfl]
    rw [show queryEscape "version" ++ "=" = ("version=" : String) from rfl]
    have hq : queryEscape version = version := by
      simp only [isSupportedUUIDVersion, Bool.or_eq_true, beq_iff_eq] at hver
      rcases hver with (h | h) | h <;> subst h <;> rfl
    rw [hq]
  rw [hbatch]
  exact ⟨by rw [finishCall_calls, hcalls], hurl,
    (finishCall_of_ok [] _ xs hok).1, (finishCall_of_ok [] _ xs hok).2⟩

/-- C9 (witness): a concrete v7 batch of 3 sends
`?count=3&version=v7` and returns the decoded list in order. -/
theorem UUIDBatch_sends_version_count_witness :
    (UUIDBatch netList (some (testClient netList)) "v7" 3).calls =
        [mkRequest (testClient netList) [("version", "v7"), ("count", itoa 3)]] ∧
      (mkRequest (testClient netList) [("version", "v7"), ("count", itoa 3)]).url =
        joinSlash (effectiveBaseURL (testClient netList)) ++ "?" ++
          ("count=" ++ itoa 3 ++ "&" ++ ("version=" ++ "v7")) ∧
      (UUIDBatch netList (some (testClient netList)) "v7" 3).value = ["a", "b", "c"] ∧
      (UUIDBatch netList (some (testClient netList)) "v7" 3).err = none :=
  UUIDBatch_sends_version_count netList (testClient netList) "v7" 3
    { statusCode := 200, body := listUUIDBody } ["a", "b", "c"]
    rfl (by decide) (by decide) rfl (by decide) (by decide) rfl

theorem encodePairs_ne_empty {vs : List (String × String)} (h : vs ≠ []) :
    encodePairs vs ≠ "" := by
  match vs, h with
  | [p], _ => exact encodePair_ne_empty p.1 p.2
  | p :: q :: rest, _ =>
    show queryEscape p.1 ++ "=" ++ queryEscape p.2 ++ "&" ++ encodePairs (q :: rest) ≠ ""
    apply str_ne_empty_of_length_pos
    have h1 : (queryEscape p.1 ++ "=" ++ queryEscape p.2 ++ "&" ++
        encodePairs (q :: rest)).length =
        (queryEscape p.1 ++ "=" ++ queryEscape p.2 ++ "&").length +
          (encodePairs (q :: rest)).length := String.length_append _ _
    have h2 : (queryEscape p.1 ++ "=" ++ queryEscape p.2 ++ "&").length =
        (queryEscape p.1 ++ "=" ++ queryEscape p.2).length + 1 :=
      String.length_append _ _
    omega

theorem sortByKey_eq_of_perm {l1 l2 : List (String × String)}
    (hnd : (l1.map Prod.fst).Nodup) (hperm : l1.Perm l2) :
    sortByKey l1 = sortByKey l2 := by
  haveI : IsTotal (String × String) (fun p q => strLe p.1 q.1 = true) :=
    ⟨fun a b => strLe_total a.1 b.1⟩
  haveI : IsTrans (String × String) (fun p q => strLe p.1 q.1 = true) :=
    ⟨fun a b c hab hbc => strLe_trans hab hbc⟩
  haveI : IsAntisymm (String × String)
      (fun p q => strLe p.1 q.1 = true ∧ p.1 ≠ q.1) :=
    ⟨fun a b hab hba => absurd (strLe_antisymm hab.1 hba.1) hab.2⟩
  have hp : (sortByKey l1).Perm (sortByKey l2) :=
    (List.perm_insertionSort _ l1).trans (hperm.trans (List.perm_insertionSort _ l2).symm)
  have hs1 : (sortByKey l1).Pairwise (fun p q => strLe p.1 q.1 = true) :=
    List.sorted_insertionSort _ l1
  have hs2 : (sortByKey l2).Pairwise (fun p q => strLe p.1 q.1 = true) :=
    List.sorted_insertionSort _ l2
  have hnd1 : ((sortByKey l1).map Prod.fst).Nodup :=
    (((List.perm_insertionSort _ l1).map Prod.fst).nodup_iff).mpr hnd
  have hnd2 : ((sortByKey l2).map Prod.fst).Nodup :=
    (((List.perm_insertionSort _ l2).map Prod.fst).nodup_iff).mpr
      (((hperm.map Prod.fst).nodup_iff).mp hnd)
  exact List.eq_of_perm_of_sorted hp
    (hs1.and (List.pairwise_map.mp hnd1)) (hs2.and (List.pairwise_map.mp hnd2))

/-- Supporting result on the modelled clean-base domain (it does not
settle the universal URL-builder claim, which also covers bases net/url
rejects or normalises): the URL builder is deterministic in the map's
contents — any two enumeration orders of a map with distinct keys yield
the same URL — and the emitted parameter list is the escaped form of
exactly the non-empty-key parameters, ordered ascending by parameter
name; when at least one parameter survives, the result is the
slash-terminated base followed by `?` and the encoded, sorted, escaped
pairs. -/
theorem buildURL_deterministic_sorted_escaped (c : Client)
    (q1 q2 : List (String × String))
    (hnd : (q1.map Prod.fst).Nodup) (hperm : q1.Perm q2) :
    buildURL c q1 = buildURL c q2 ∧
    (sortByKey (q1.filter fun p => !(p.1 == ""))).Pairwise
      (fun p q => strLe p.1 q.1 = true) ∧
    (sortByKey (q1.filter fun p => !(p.1 == ""))).Perm
      (q1.filter fun p => !(p.1 == "")) ∧
    (∀ p ∈ sortByKey (q1.filter fun p => !(p.1 == "")), p.1 ≠ "") ∧
    ((q1.filter fun p => !(p.1 == "")) ≠ [] →
      buildURL c q1 = joinSlash (effectiveBaseURL c) ++ "?" ++
        encodePairs (sortByKey (q1.filter fun p => !(p.1 == "")))) := by
  haveI : IsTotal (String × String) (fun p q => strLe p.1 q.1 = true) :=
    ⟨fun a b => strLe_total a.1 b.1⟩
  haveI : IsTrans (String × String) (fun p q => strLe p.1 q.1 = true) :=
    ⟨fun a b c hab hbc => strLe_trans hab hbc⟩
  have hndf : ((q1.filter fun p => !(p.1 == "")).map Prod.fst).Nodup :=
    hnd.sublist ((List.filter_sublist q1).map Prod.fst)
  have hfp : (q1.filter fun p => !(p.1 == "")).Perm
      (q2.filter fun p => !(p.1 == "")) := hperm.filter _
  have hsorteq : sortByKey (q1.filter fun p => !(p.1 == "")) =
      sortByKey (q2.filter fun p => !(p.1 == "")) :=
    sortByKey_eq_of_perm hndf hfp
  refine ⟨?_, List.sorted_insertionSort _ _, List.perm_insertionSort _ _, ?_, ?_⟩
  · unfold buildURL
    dsimp only
    rw [show q2.length = q1.length from hperm.length_eq.symm, ← hsorteq]
  · intro p hp
    have hmem : p ∈ q1.filter fun p => !(p.1 == "") :=
      (List.perm_insertionSort _ _).mem_iff.mp hp
    have := List.of_mem_filter hmem
    simpa using this
  · intro hne
    have hq : q1.length > 0 := by
      rcases q1 with _ | ⟨a, l⟩
      · exact absurd rfl hne
      · simp
    unfold buildURL
    rw [if_pos hq]
    dsimp only
    rw [if_neg ?hne2]
    case hne2 =>
      apply encodePairs_ne_empty
      intro he
      exact hne (List.Perm.eq_nil (he ▸ (List.perm_insertionSort _ _).symm))

/-- Instance of the previous result: two enumeration orders of a concrete
two-entry map yield the same URL, sorted and escaped, with the rest of
the properties holding at that input. -/
theorem buildURL_deterministic_sorted_escaped_witness :
    buildURL (testClient netSingle) [("version", "v4"), ("count", "2")] =
      buildURL (testClient netSingle) [("count", "2"), ("version", "v4")] ∧
    (sortByKey ([("version", "v4"), ("count", "2")].filter
      fun p => !(p.1 == ""))).Pairwise (fun p q => strLe p.1 q.1 = true) ∧
    (sortByKey ([("version", "v4"), ("count", "2")].filter
      fun p => !(p.1 == ""))).Perm
      ([("version", "v4"), ("count", "2")].filter fun p => !(p.1 == "")) ∧
    (∀ p ∈ sortByKey ([("version", "v4"), ("count", "2")].filter
      fun p => !(p.1 == "")), p.1 ≠ "") ∧
    (([("version", "v4"), ("count", "2")].filter fun p => !(p.1 == "")) ≠ [] →
      buildURL (testClient netSingle) [("version", "v4"), ("count", "2")] =
        joinSlash (effectiveBaseURL (testClient netSingle)) ++ "?" ++
          encodePairs (sortByKey ([("version", "v4"), ("count", "2")].filter
            fun p => !(p.1 == "")))) :=
  buildURL_deterministic_sorted_escaped (testClient netSingle)
    [("version", "v4"), ("count", "2")] [("count", "2"), ("version", "v4")]
    (by decide) (by decide)

/-- C1 (code evaluated at the failing input): `UUIDBatch` with count 1
does send the `count` parameter — the query map is built with both
`version` and `count` before the `count == 1` branch, and that same map is
used for the single-shape request — so the URL of the one request issued
is `https://api.uuidify.io/?count=1&version=v4`, contradicting the
specified behaviour of not including `count`; the single-identifier shape
is nevertheless decoded and a one-element sequence returned. -/
theorem UUIDBatch_count1_sends_count :
    (UUIDBatch netSingle (some (testClient netSingle)) "v4" 1).calls =
        [{ method := "GET",
           url := "https://api.uuidify.io/?count=1&version=v4",
           userAgent := defaultUserAgent }] ∧
      (UUIDBatch netSingle (some (testClient netSingle)) "v4" 1).value = ["1234"] ∧
      (UUIDBatch netSingle (some (testClient netSingle)) "v4" 1).err = none :=
  ⟨by decide, by decide, by decide⟩

end Uuidify
